import Mathlib

/- Shallow embedding of the product-normalization and listing core of the
   price-comparison backend (app/products/service.py and app/para/service.py).

   Prices are embedded as exact rationals; Python float conversion is the
   identity on these values.  Python truthiness tests on optional numbers,
   strings, lists and dicts are made explicit through the `truthy*` helpers:
   a value is truthy when it is present and not zero / not empty.  A raw
   per-product document's `shops` dict is embedded as an association list
   (shop identifier to offer); `List.lookup` plays the role of `dict.get`.  -/

/-- Python truthiness on an optional number: `None` and `0` are falsy. -/
def truthyQ : Option ℚ → Option ℚ
  | none => none
  | some q => if q = 0 then none else some q

/-- Python truthiness on an optional string: `None` and `""` are falsy. -/
def truthyStr : Option String → Option String
  | none => none
  | some s => if s = "" then none else some s

/-- Python `str.upper()` (ASCII): uppercase every character. -/
def pyUpper (s : String) : String := ⟨s.data.map Char.toUpper⟩

/-- Python `str.capitalize()`: first character uppercased, rest lowercased. -/
def pyCapitalize (s : String) : String :=
  match s.data with
  | [] => ""
  | c :: cs => ⟨c.toUpper :: cs.map Char.toLower⟩

/-- Python `s.replace(a, b)` for one-character patterns (the only form the
source uses, in the para shop display name). -/
def pyReplaceChar (s : String) (a b : Char) : String :=
  ⟨s.data.map (fun c => if c = a then b else c)⟩

/-- Worker for `pyTitle`: the flag is true at the start of a word. -/
def pyTitleGo : Bool → List Char → List Char
  | _, [] => []
  | startWord, c :: cs =>
    if c.isAlpha then (if startWord then c.toUpper else c.toLower) :: pyTitleGo false cs
    else c :: pyTitleGo true cs

/-- Python `str.title()` (ASCII): uppercase each letter that follows a
non-letter, lowercase the other letters. -/
def pyTitle (s : String) : String := ⟨pyTitleGo true s.data⟩

/-- Python substring test `pat in s`, via `splitOn`. -/
def pyContains (s pat : String) : Bool := (s.splitOn pat).length != 1

/-- Python `round` to an integer: round half to even (banker's rounding),
on the exact rational value. -/
def roundHalfEven (q : ℚ) : ℤ :=
  let f := ⌊q⌋
  let frac := q - f
  if frac < 1/2 then f
  else if 1/2 < frac then f + 1
  else if f % 2 = 0 then f else f + 1

/-- Python `round(q, 3)`. -/
def pyRound3 (q : ℚ) : ℚ := (roundHalfEven (q * 1000) : ℚ) / 1000

/-- The property of having at most `k` decimal places: the reduced
denominator divides `10 ^ k`. -/
def hasDp (k : ℕ) (q : ℚ) : Prop := q.den ∣ 10 ^ k

/- Data model -/

/-- One shop's offer nested inside a raw merged product document.  Absent
dict keys are `none` / `[]`; a Python shop sub-dict that is absent or empty
is embedded as an absent entry in the association list, which is
observationally identical through every `shop and shop.get(...)` guard. -/
structure ShopOffer where
  price : Option ℚ
  old_price : Option ℚ
  available : Bool
  url : Option String
  images : List String
  brand : Option String
  specifications : Option (List (String × String))
deriving DecidableEq

/-- A raw document of the merged collection. -/
structure RawProduct where
  _id : Option String
  title : Option String
  sku : Option String
  subcategory : Option String
  low_category : Option String
  top_category : Option String
  shops : List (String × ShopOffer)
deriving DecidableEq

/-- A raw document of a single-shop details collection. -/
structure SingleDoc where
  _id : Option String
  title : Option String
  sku : Option String
  brand : Option String
  price : Option ℚ
  old_price : Option ℚ
  available : Bool
  url : Option String
  images : List String
  overview : Option String
  description : Option String
  subcategory : Option String
  low_category : Option String
  top_category : Option String
  specifications : Option (List (String × String))
deriving DecidableEq

/-- Schema `ShopPrice` (one entry of a normalized price list). -/
structure ShopPrice where
  shop : String
  price : ℚ
  oldPrice : Option ℚ
  available : Bool
  url : Option String
deriving DecidableEq

/-- Schema `Product` (general retail domain). -/
structure Product where
  id : String
  name : String
  brand : String
  bestPrice : ℚ
  originalPrice : Option ℚ
  image : String
  description : String
  inStock : Bool
  category : Option String
  shopPrices : List ShopPrice
  specifications : Option (List (String × String))
deriving DecidableEq

/-- Schema `ParaProduct` (parapharmacy domain). -/
structure ParaProduct where
  id : String
  name : String
  brand : String
  bestPrice : ℚ
  originalPrice : Option ℚ
  image : String
  description : String
  inStock : Bool
  category : Option String
  topCategory : Option String
  shopPrices : List ShopPrice
  specifications : Option (List (String × String))
deriving DecidableEq

/-- Ordering of price-list entries used by the `shop_prices.sort` call. -/
def priceLE (a b : ShopPrice) : Prop := a.price ≤ b.price

instance : DecidableRel priceLE := fun a b => inferInstanceAs (Decidable (a.price ≤ b.price))

instance : IsTotal ShopPrice priceLE := ⟨fun a b => le_total a.price b.price⟩

instance : IsTrans ShopPrice priceLE := ⟨fun _ _ _ h h2 => le_trans h h2⟩

/- Retail normalizer (app/products/service.py) -/

/-- Shop priority order of the retail domain. -/
def retailShops : List String := ["mytek", "spacenet", "tunisianet"]

/-- Shop order used by the retail image loop. -/
def retailImageShops : List String := ["mytek", "tunisianet", "spacenet"]

/-- The price-collection loop of `parse_product`: one entry per priority
shop whose offer has a truthy price. -/
def retailShopPrices (shops_data : List (String × ShopOffer)) : List ShopPrice :=
  retailShops.filterMap fun shop_name =>
    (shops_data.lookup shop_name).bind fun shop =>
      (truthyQ shop.price).map fun price =>
        { shop := pyCapitalize shop_name
          price := price
          oldPrice := truthyQ shop.old_price
          available := shop.available
          url := shop.url }

/-- Inner image loop: first image not containing "livraison-gratuite",
leaving the placeholder when none qualifies. -/
def firstNonLivraison (images : List String) : String :=
  match images.find? (fun img => !pyContains img "livraison-gratuite") with
  | some img => img
  | none => "/placeholder.svg"

/-- Outer image loop of `parse_product`. -/
def retailImage (shops_data : List (String × ShopOffer)) : List String → String
  | [] => "/placeholder.svg"
  | shop_name :: rest =>
    match shops_data.lookup shop_name with
    | some shop =>
      if shop.images.isEmpty then retailImage shops_data rest
      else
        let iu := firstNonLivraison shop.images
        if iu = "/placeholder.svg" then retailImage shops_data rest else iu
    | none => retailImage shops_data rest

/-- Brand loop shared by both merged normalizers: first truthy brand in
priority order, uppercased, defaulting to "Generic". -/
def firstBrand (shops_data : List (String × ShopOffer)) : List String → String
  | [] => "Generic"
  | shop_name :: rest =>
    match (shops_data.lookup shop_name).bind (fun shop => truthyStr shop.brand) with
    | some b => pyUpper b
    | none => firstBrand shops_data rest

/-- Insert the key/value pairs of one shop's specifications, keeping
already-present keys (`if key not in specifications`). -/
def addSpecs (acc : List (String × String)) (kvs : List (String × String)) :
    List (String × String) :=
  kvs.foldl (fun acc kv => if (acc.lookup kv.1).isSome then acc else acc ++ [kv]) acc

/-- Specification merge across shops in priority order, first-seen key wins. -/
def mergeSpecs (shops_data : List (String × ShopOffer)) (order : List String) :
    List (String × String) :=
  order.foldl
    (fun acc shop_name =>
      match shops_data.lookup shop_name with
      | some shop =>
        match shop.specifications with
        | some kvs => if kvs = [] then acc else addSpecs acc kvs
        | none => acc
      | none => acc)
    []

/-- Python `a or b or c` over two optional category fields and a default. -/
def categoryOr (a b : Option String) (default_category : String) : String :=
  match truthyStr a with
  | some s => s
  | none =>
    match truthyStr b with
    | some s => s
    | none => default_category

/-- `parse_product` from app/products/service.py. -/
def parse_product (p : RawProduct) (default_category : String) (include_specs : Bool) :
    Product :=
  let shops_data := p.shops
  let shop_prices := List.insertionSort priceLE (retailShopPrices shops_data)
  let best_price := match shop_prices with | [] => 0 | sp :: _ => sp.price
  let old_prices := shop_prices.filterMap (fun sp => truthyQ sp.oldPrice)
  let original_price := old_prices.min?
  { id := p._id.getD "unknown"
    name := p.title.getD "Unknown Product"
    brand := firstBrand shops_data retailShops
    bestPrice := best_price
    originalPrice := truthyQ original_price
    image := retailImage shops_data retailImageShops
    description := p.title.getD ""
    inStock := shop_prices.any (fun sp => sp.available)
    category := some (categoryOr p.subcategory p.low_category default_category)
    shopPrices := shop_prices
    specifications := if include_specs then some (mergeSpecs shops_data retailShops) else none }

/-- `parse_single_shop_product` from app/products/service.py. -/
def parse_single_shop_product (p : SingleDoc) (shop_name : String) : Product :=
  let price := p.price.getD 0
  let old_price := truthyQ p.old_price
  let brand0 := p.brand.getD "Generic"
  { id := p._id.getD "unknown"
    name := p.title.getD "Unknown Product"
    brand := if brand0 = "" then brand0 else pyUpper brand0
    bestPrice := price
    originalPrice := old_price
    image := firstNonLivraison p.images
    description := p.overview.getD (p.title.getD "")
    inStock := p.available
    category :=
      (match truthyStr p.subcategory with
       | some s => some s
       | none => p.low_category)
    shopPrices :=
      [{ shop := pyCapitalize shop_name
         price := price
         oldPrice := old_price
         available := p.available
         url := p.url }]
    specifications := p.specifications }

/- Parapharmacy normalizer (app/para/service.py) -/

/-- Shop priority order of the parapharmacy domain (`PARA_SHOPS`). -/
def PARA_SHOPS : List String := ["parashop", "pharma-shop", "parafendri"]

/-- Display name of a para shop: `shop_name.replace("-", " ").title()`. -/
def paraShopDisplay (s : String) : String := pyTitle (pyReplaceChar s '-' ' ')

/-- The price-collection loop of `parse_para_product`: prices are rounded
to 3 decimal places, old prices are passed through. -/
def paraShopPrices (shops_data : List (String × ShopOffer)) : List ShopPrice :=
  PARA_SHOPS.filterMap fun shop_name =>
    (shops_data.lookup shop_name).bind fun shop =>
      (truthyQ shop.price).map fun price =>
        { shop := paraShopDisplay shop_name
          price := pyRound3 price
          oldPrice := truthyQ shop.old_price
          available := shop.available
          url := shop.url }

/-- Image loop of `parse_para_product`: first shop with a non-empty image
list contributes its first image. -/
def paraImage (shops_data : List (String × ShopOffer)) : List String → String
  | [] => "/placeholder.svg"
  | shop_name :: rest =>
    match shops_data.lookup shop_name with
    | some shop =>
      match shop.images with
      | [] => paraImage shops_data rest
      | img :: _ => img
    | none => paraImage shops_data rest

/-- `parse_para_product` from app/para/service.py. -/
def parse_para_product (p : RawProduct) (default_category : String) (include_specs : Bool) :
    ParaProduct :=
  let shops_data := p.shops
  let shop_prices := List.insertionSort priceLE (paraShopPrices shops_data)
  let best_price := match shop_prices with | [] => 0 | sp :: _ => sp.price
  let old_prices := shop_prices.filterMap (fun sp => truthyQ sp.oldPrice)
  let original_price := old_prices.min?
  { id := p._id.getD "unknown"
    name := p.title.getD "Unknown Product"
    brand := firstBrand shops_data PARA_SHOPS
    bestPrice := pyRound3 best_price
    originalPrice := (truthyQ original_price).map pyRound3
    image := paraImage shops_data PARA_SHOPS
    description := p.title.getD ""
    inStock := shop_prices.any (fun sp => sp.available)
    category := some (categoryOr p.low_category p.subcategory default_category)
    topCategory := p.top_category
    shopPrices := shop_prices
    specifications := if include_specs then some (mergeSpecs shops_data PARA_SHOPS) else none }

/-- `parse_single_para_shop_product` from app/para/service.py. -/
def parse_single_para_shop_product (p : SingleDoc) (shop_name : String) : ParaProduct :=
  let price := p.price.getD 0
  let old_price := truthyQ p.old_price
  let brand0 := p.brand.getD "Generic"
  { id := p._id.getD "unknown"
    name := p.title.getD "Unknown Product"
    brand := if brand0 = "" then brand0 else pyUpper brand0
    bestPrice := pyRound3 price
    originalPrice := old_price.map pyRound3
    image := match p.images with | [] => "/placeholder.svg" | img :: _ => img
    description := p.description.getD (p.title.getD "")
    inStock := p.available
    category :=
      (match truthyStr p.low_category with
       | some s => some s
       | none => p.subcategory)
    topCategory := p.top_category
    shopPrices :=
      [{ shop := paraShopDisplay shop_name
         price := pyRound3 price
         oldPrice := old_price.map pyRound3
         available := p.available
         url := p.url }]
    specifications := some [] }

/- Listing accessors -/

/-- Schema `ProductListResponse`. -/
structure ProductListResponse where
  products : List Product
  total : ℕ
  page : ℕ
  limit : ℕ
  totalPages : ℕ
deriving DecidableEq

/-- Schema `ParaProductListResponse`. -/
structure ParaProductListResponse where
  products : List ParaProduct
  total : ℕ
  page : ℕ
  limit : ℕ
  totalPages : ℕ
deriving DecidableEq

/-- Result decoding of `get_products_listing`.  The aggregation pipeline is
executed by the external document store; its outcome is the `Except` input
(`metadata` totals facet and raw product slice on success).  The `try/except`
of the source maps any execution failure to an empty page. -/
def get_products_listing (agg : Except String (List ℕ × List RawProduct))
    (page limit : ℕ) : ProductListResponse :=
  match agg with
  | .ok (metadata, products_raw) =>
    let total := metadata.head?.getD 0
    let total_pages := if 0 < total then (total + limit - 1) / limit else 1
    { products := products_raw.map (fun p => parse_product p "" false)
      total := total
      page := page
      limit := limit
      totalPages := total_pages }
  | .error _ =>
    { products := [], total := 0, page := page, limit := limit, totalPages := 0 }

/-- Result decoding of `get_para_products_listing` (same shape as the retail
one, parsing with the para normalizer). -/
def get_para_products_listing (agg : Except String (List ℕ × List RawProduct))
    (page limit : ℕ) : ParaProductListResponse :=
  match agg with
  | .ok (metadata, products_raw) =>
    let total := metadata.head?.getD 0
    let total_pages := if 0 < total then (total + limit - 1) / limit else 1
    { products := products_raw.map (fun p => parse_para_product p "" false)
      total := total
      page := page
      limit := limit
      totalPages := total_pages }
  | .error _ =>
    { products := [], total := 0, page := page, limit := limit, totalPages := 0 }

/- Autocomplete search -/

/-- Schema `SearchResult`. -/
structure SearchResult where
  id : String
  name : String
  brand : String
  bestPrice : ℚ
  image : String
  inStock : Bool
deriving DecidableEq

/-- Schema `ParaSearchResult`. -/
structure ParaSearchResult where
  id : String
  name : String
  brand : String
  bestPrice : ℚ
  image : String
  inStock : Bool
deriving DecidableEq

/-- Projection of a retail product onto a search result. -/
def mkSearchResult (prod : Product) : SearchResult :=
  { id := prod.id, name := prod.name, brand := prod.brand,
    bestPrice := prod.bestPrice, image := prod.image, inStock := prod.inStock }

/-- Projection of a para product onto a search result. -/
def mkParaSearchResult (prod : ParaProduct) : ParaSearchResult :=
  { id := prod.id, name := prod.name, brand := prod.brand,
    bestPrice := prod.bestPrice, image := prod.image, inStock := prod.inStock }

/-- The merged-collection loop of the search accessors: collect a result
for each document with a truthy, unseen SKU (no break).  The state pairs
the collected results, each keyed by the SKU that admitted it, with the
`seen_skus` set (kept as a list). -/
def mergedScan {α β : Type} (mk : α → β) (getSku : α → Option String) :
    List α → List (String × β) × List String → List (String × β) × List String
  | [], st => st
  | p :: rest, (results, seen) =>
    match truthyStr (getSku p) with
    | some sku =>
      if sku ∈ seen then mergedScan mk getSku rest (results, seen)
      else mergedScan mk getSku rest (results ++ [(sku, mk p)], sku :: seen)
    | none => mergedScan mk getSku rest (results, seen)

/-- A single-shop collection loop of the search accessors: like
`mergedScan` but breaking as soon as the limit is reached after an append. -/
def shopScan {α β : Type} (mk : α → β) (getSku : α → Option String) (limit : ℕ) :
    List α → List (String × β) × List String → List (String × β) × List String
  | [], st => st
  | p :: rest, (results, seen) =>
    match truthyStr (getSku p) with
    | some sku =>
      if sku ∈ seen then shopScan mk getSku limit rest (results, seen)
      else
        let results2 := results ++ [(sku, mk p)]
        if limit ≤ results2.length then (results2, sku :: seen)
        else shopScan mk getSku limit rest (results2, sku :: seen)
    | none => shopScan mk getSku limit rest (results, seen)

/-- `search_products`, keyed: each collected result is paired with the SKU
under which it was deduplicated.  The inputs are the cursors the document
store returns for the merged collection and the three shop collections (the
store-side regex filtering is external); `.limit(n)` is `List.take n`. -/
def search_products_keyed (merged : List RawProduct)
    (mytek spacenet tunisianet : List SingleDoc) (limit : ℕ) :
    List (String × SearchResult) :=
  let st1 := mergedScan (fun p => mkSearchResult (parse_product p "" false))
    (fun p => p.sku) (merged.take limit) ([], [])
  let final :=
    if st1.1.length < limit then
      let remaining := limit - st1.1.length
      let st2 :=
        if limit ≤ st1.1.length then st1
        else shopScan (fun p => mkSearchResult (parse_single_shop_product p "mytek"))
          (fun p => p.sku) limit (mytek.take remaining) st1
      let st3 :=
        if limit ≤ st2.1.length then st2
        else shopScan (fun p => mkSearchResult (parse_single_shop_product p "spacenet"))
          (fun p => p.sku) limit (spacenet.take remaining) st2
      let st4 :=
        if limit ≤ st3.1.length then st3
        else shopScan (fun p => mkSearchResult (parse_single_shop_product p "tunisianet"))
          (fun p => p.sku) limit (tunisianet.take remaining) st3
      st4.1
    else st1.1
  final.take limit

/-- `search_products` as the endpoint returns it. -/
def search_products (merged : List RawProduct)
    (mytek spacenet tunisianet : List SingleDoc) (limit : ℕ) : List SearchResult :=
  (search_products_keyed merged mytek spacenet tunisianet limit).map Prod.snd

/-- `search_para_products`, keyed by deduplication SKU. -/
def search_para_products_keyed (merged : List RawProduct)
    (parashop pharmashop parafendri : List SingleDoc) (limit : ℕ) :
    List (String × ParaSearchResult) :=
  let st1 := mergedScan (fun p => mkParaSearchResult (parse_para_product p "" false))
    (fun p => p.sku) (merged.take limit) ([], [])
  let final :=
    if st1.1.length < limit then
      let remaining := limit - st1.1.length
      let st2 :=
        if limit ≤ st1.1.length then st1
        else shopScan (fun p => mkParaSearchResult (parse_single_para_shop_product p "parashop"))
          (fun p => p.sku) limit (parashop.take remaining) st1
      let st3 :=
        if limit ≤ st2.1.length then st2
        else shopScan (fun p => mkParaSearchResult (parse_single_para_shop_product p "pharma-shop"))
          (fun p => p.sku) limit (pharmashop.take remaining) st2
      let st4 :=
        if limit ≤ st3.1.length then st3
        else shopScan (fun p => mkParaSearchResult (parse_single_para_shop_product p "parafendri"))
          (fun p => p.sku) limit (parafendri.take remaining) st3
      st4.1
    else st1.1
  final.take limit

/-- `search_para_products` as the endpoint returns it. -/
def search_para_products (merged : List RawProduct)
    (parashop pharmashop parafendri : List SingleDoc) (limit : ℕ) :
    List ParaSearchResult :=
  (search_para_products_keyed merged parashop pharmashop parafendri limit).map Prod.snd

/- Helper lemmas -/

theorem truthyQ_eq_some {o : Option ℚ} {q : ℚ} :
    truthyQ o = some q ↔ o = some q ∧ q ≠ 0 := by
  cases o with
  | none => simp [truthyQ]
  | some x =>
    by_cases h : x = 0
    · subst h
      simp [truthyQ]
      rintro rfl
      simp
    · simp only [truthyQ, if_neg h, Option.some_inj]
      constructor
      · rintro rfl; exact ⟨rfl, h⟩
      · rintro ⟨hx, _⟩; exact hx

theorem truthyQ_ne_zero {o : Option ℚ} {q : ℚ} (h : truthyQ o = some q) : q ≠ 0 :=
  (truthyQ_eq_some.mp h).2

theorem truthyStr_eq_some {o : Option String} {s : String} :
    truthyStr o = some s → o = some s ∧ s ≠ "" := by
  cases o with
  | none => simp [truthyStr]
  | some x =>
    by_cases h : x = ""
    · simp [truthyStr, h]
    · simp only [truthyStr, if_neg h, Option.some_inj]
      rintro rfl; exact ⟨rfl, h⟩

theorem roundHalfEven_intCast (n : ℤ) : roundHalfEven (n : ℚ) = n := by
  unfold roundHalfEven
  simp only [Int.floor_intCast, sub_self]
  norm_num

theorem pyRound3_zero : pyRound3 0 = 0 := by
  have h0 : (0 : ℚ) * 1000 = ((0 : ℤ) : ℚ) := by norm_num
  unfold pyRound3
  rw [h0, roundHalfEven_intCast]
  norm_num

theorem pyRound3_idem (q : ℚ) : pyRound3 (pyRound3 q) = pyRound3 q := by
  unfold pyRound3
  rw [div_mul_cancel₀ _ (by norm_num : (1000 : ℚ) ≠ 0), roundHalfEven_intCast]

theorem pyRound3_hasDp (q : ℚ) : hasDp 3 (pyRound3 q) := by
  unfold hasDp pyRound3
  have h1 : ((roundHalfEven (q * 1000) : ℤ) : ℚ) / 1000 =
      Rat.divInt (roundHalfEven (q * 1000)) 1000 := by
    rw [Rat.divInt_eq_div]
    norm_num
  rw [h1]
  have h2 := Rat.den_dvd (roundHalfEven (q * 1000)) 1000
  have h3 : (Rat.divInt (roundHalfEven (q * 1000)) 1000).den ∣ 1000 := by
    exact_mod_cast h2
  exact dvd_trans h3 (by norm_num)

/- Stability of the price sort: for every price value, the entries holding
that value appear in the sorted list exactly as they do in the input. -/

theorem filter_orderedInsert_price (v : ℚ) (a : ShopPrice) (l : List ShopPrice) :
    (List.orderedInsert priceLE a l).filter (fun e => decide (e.price = v)) =
      if a.price = v then a :: l.filter (fun e => decide (e.price = v))
      else l.filter (fun e => decide (e.price = v)) := by
  induction l with
  | nil =>
    by_cases h : a.price = v <;> simp [List.orderedInsert, List.filter, h]
  | cons b t ih =>
    rw [List.orderedInsert]
    by_cases hab : priceLE a b
    · rw [if_pos hab]
      by_cases hav : a.price = v <;> simp [List.filter_cons, hav]
    · rw [if_neg hab]
      have hba : b.price < a.price := lt_of_not_le hab
      by_cases hav : a.price = v
      · have hbv : ¬(b.price = v) := by
          rw [← hav]; exact ne_of_lt hba
        simp [List.filter_cons, hav, hbv, ih]
      · by_cases hbv : b.price = v <;> simp [List.filter_cons, hav, hbv, ih]

theorem filter_insertionSort_price (v : ℚ) (l : List ShopPrice) :
    (List.insertionSort priceLE l).filter (fun e => decide (e.price = v)) =
      l.filter (fun e => decide (e.price = v)) := by
  induction l with
  | nil => rfl
  | cons a t ih =>
    rw [List.insertionSort, filter_orderedInsert_price, ih]
    by_cases hav : a.price = v <;> simp [List.filter_cons, hav]

/- Characterization of the two price-collection loops -/

theorem mem_retailShopPrices {sd : List (String × ShopOffer)} {e : ShopPrice} :
    e ∈ retailShopPrices sd ↔
      ∃ s ∈ retailShops, ∃ shop, sd.lookup s = some shop ∧ ∃ q,
        truthyQ shop.price = some q ∧
        e = { shop := pyCapitalize s, price := q, oldPrice := truthyQ shop.old_price,
              available := shop.available, url := shop.url } := by
  unfold retailShopPrices
  rw [List.mem_filterMap]
  constructor
  · rintro ⟨s, hs, hf⟩
    cases h1 : sd.lookup s with
    | none => rw [h1] at hf; exact absurd hf (by simp)
    | some shop =>
      rw [h1] at hf
      simp only [Option.some_bind] at hf
      cases h2 : truthyQ shop.price with
      | none => rw [h2] at hf; exact absurd hf (by simp)
      | some q =>
        rw [h2] at hf
        simp only [Option.map_some', Option.some_inj] at hf
        exact ⟨s, hs, shop, h1, q, h2, hf.symm⟩
  · rintro ⟨s, hs, shop, h1, q, h2, rfl⟩
    refine ⟨s, hs, ?_⟩
    rw [h1]
    simp only [Option.some_bind]
    rw [h2]
    rfl

theorem mem_paraShopPrices {sd : List (String × ShopOffer)} {e : ShopPrice} :
    e ∈ paraShopPrices sd ↔
      ∃ s ∈ PARA_SHOPS, ∃ shop, sd.lookup s = some shop ∧ ∃ q,
        truthyQ shop.price = some q ∧
        e = { shop := paraShopDisplay s, price := pyRound3 q,
              oldPrice := truthyQ shop.old_price,
              available := shop.available, url := shop.url } := by
  unfold paraShopPrices
  rw [List.mem_filterMap]
  constructor
  · rintro ⟨s, hs, hf⟩
    cases h1 : sd.lookup s with
    | none => rw [h1] at hf; exact absurd hf (by simp)
    | some shop =>
      rw [h1] at hf
      simp only [Option.some_bind] at hf
      cases h2 : truthyQ shop.price with
      | none => rw [h2] at hf; exact absurd hf (by simp)
      | some q =>
        rw [h2] at hf
        simp only [Option.map_some', Option.some_inj] at hf
        exact ⟨s, hs, shop, h1, q, h2, hf.symm⟩
  · rintro ⟨s, hs, shop, h1, q, h2, rfl⟩
    refine ⟨s, hs, ?_⟩
    rw [h1]
    simp only [Option.some_bind]
    rw [h2]
    rfl

theorem paraShopPrices_price_round {sd : List (String × ShopOffer)} {e : ShopPrice}
    (he : e ∈ paraShopPrices sd) : ∃ q, e.price = pyRound3 q := by
  obtain ⟨s, _, shop, _, q, _, rfl⟩ := mem_paraShopPrices.mp he
  exact ⟨q, rfl⟩

/- The old-price candidates of a price list (`[sp.oldPrice for sp in
shop_prices if sp.oldPrice]`). -/

def oldCandidates (l : List ShopPrice) : List ℚ :=
  l.filterMap (fun sp => truthyQ sp.oldPrice)

theorem mem_oldCandidates_ne_zero {l : List ShopPrice} {q : ℚ}
    (h : q ∈ oldCandidates l) : q ≠ 0 := by
  obtain ⟨sp, _, hsp⟩ := List.mem_filterMap.mp h
  exact truthyQ_ne_zero hsp

theorem min?_mem_rat {l : List ℚ} {q : ℚ} (h : l.min? = some q) : q ∈ l :=
  List.min?_mem (fun a b => min_choice a b) h

theorem min?_le_rat {l : List ℚ} {q : ℚ} (h : l.min? = some q) :
    ∀ r ∈ l, q ≤ r :=
  (List.le_min?_iff (fun a b c => le_min_iff) h).mp le_rfl

/- Arithmetic of the totalPages formula -/

theorem add_pred_div_eq_ceil (t l : ℕ) (hl : 1 ≤ l) (ht : 0 < t) :
    (t + l - 1) / l = ⌈(t : ℚ) / (l : ℚ)⌉₊ := by
  have hl0 : 0 < l := hl
  have hlq : (0 : ℚ) < (l : ℚ) := by exact_mod_cast hl0
  have hmod : (t + l - 1) % l < l := Nat.mod_lt _ hl0
  have hdm : l * ((t + l - 1) / l) + (t + l - 1) % l = t + l - 1 := Nat.div_add_mod _ _
  obtain ⟨n, hn⟩ : ∃ n, (t + l - 1) / l = n := ⟨_, rfl⟩
  obtain ⟨r, hr⟩ : ∃ r, (t + l - 1) % l = r := ⟨_, rfl⟩
  rw [hn, hr] at hdm
  rw [hr] at hmod
  rw [hn]
  have hn1 : 1 ≤ n := by
    rcases Nat.eq_zero_or_pos n with h0 | h1
    · subst h0; omega
    · exact h1
  have hub : t ≤ l * n := by omega
  have hlb : l * n < t + l := by omega
  have hubQ : (t : ℚ) ≤ (l : ℚ) * (n : ℚ) := by exact_mod_cast hub
  have hlbQ : (l : ℚ) * (n : ℚ) < (t : ℚ) + (l : ℚ) := by exact_mod_cast hlb
  symm
  rw [Nat.ceil_eq_iff (by omega : n ≠ 0)]
  constructor
  · rw [Nat.cast_sub hn1, Nat.cast_one, lt_div_iff₀ hlq]
    nlinarith
  · rw [div_le_iff₀ hlq]
    nlinarith

/- Brand resolution, stated after the specification's words -/

/-- Specification-side statement of brand resolution ("iterate shops in
priority order, take first non-empty brand, uppercase it; default
Generic"), for comparison with the code's loop. -/
def specFirstBrand (shops_data : List (String × ShopOffer)) (order : List String) : String :=
  match order.filterMap (fun n => (shops_data.lookup n).bind fun sh => truthyStr sh.brand) with
  | [] => "Generic"
  | b :: _ => pyUpper b

theorem firstBrand_eq_spec (sd : List (String × ShopOffer)) (order : List String) :
    firstBrand sd order = specFirstBrand sd order := by
  induction order with
  | nil => rfl
  | cons n rest ih =>
    rw [firstBrand, specFirstBrand, List.filterMap_cons]
    cases h : (sd.lookup n).bind (fun sh => truthyStr sh.brand) with
    | some b => rfl
    | none => rw [ih]; rfl

/- Invariant of the search deduplication scans -/

/-- State invariant of the search loops: the SKUs keying the collected
results are pairwise distinct, all recorded in `seen_skus`, and non-empty. -/
def ScanInv {β : Type} (st : List (String × β) × List String) : Prop :=
  (st.1.map Prod.fst).Nodup ∧ (∀ x ∈ st.1.map Prod.fst, x ∈ st.2) ∧
    ∀ x ∈ st.1.map Prod.fst, x ≠ ""

theorem scanInv_append {β : Type} {results : List (String × β)} {seen : List String}
    {sku : String} (b : β) (hinv : ScanInv (results, seen))
    (hnew : sku ∉ seen) (hne : sku ≠ "") :
    ScanInv (results ++ [(sku, b)], sku :: seen) := by
  obtain ⟨h1, h2, h3⟩ := hinv
  refine ⟨?_, ?_, ?_⟩
  · rw [List.map_append]
    rw [List.nodup_append]
    refine ⟨h1, List.nodup_singleton _, ?_⟩
    intro x hx hx2
    simp only [List.map_cons, List.map_nil, List.mem_singleton] at hx2
    subst hx2
    exact hnew (h2 _ hx)
  · intro x hx
    rw [List.map_append] at hx
    rcases List.mem_append.mp hx with h | h
    · exact List.mem_cons_of_mem _ (h2 _ h)
    · simp only [List.map_cons, List.map_nil, List.mem_singleton] at h
      subst h
      exact List.mem_cons_self _ _
  · intro x hx
    rw [List.map_append] at hx
    rcases List.mem_append.mp hx with h | h
    · exact h3 _ h
    · simp only [List.map_cons, List.map_nil, List.mem_singleton] at h
      subst h
      exact hne

theorem mergedScan_inv {α β : Type} (mk : α → β) (getSku : α → Option String) :
    ∀ (docs : List α) (st : List (String × β) × List String),
      ScanInv st → ScanInv (mergedScan mk getSku docs st)
  | [], st, h => h
  | p :: rest, (results, seen), h => by
    rw [mergedScan]
    cases hs : truthyStr (getSku p) with
    | none => exact mergedScan_inv mk getSku rest _ h
    | some sku =>
      dsimp only
      by_cases hseen : sku ∈ seen
      · rw [if_pos hseen]
        exact mergedScan_inv mk getSku rest _ h
      · rw [if_neg hseen]
        exact mergedScan_inv mk getSku rest _
          (scanInv_append _ h hseen (truthyStr_eq_some hs).2)

theorem shopScan_inv {α β : Type} (mk : α → β) (getSku : α → Option String) (limit : ℕ) :
    ∀ (docs : List α) (st : List (String × β) × List String),
      ScanInv st → ScanInv (shopScan mk getSku limit docs st)
  | [], st, h => h
  | p :: rest, (results, seen), h => by
    rw [shopScan]
    cases hs : truthyStr (getSku p) with
    | none => exact shopScan_inv mk getSku limit rest _ h
    | some sku =>
      dsimp only
      by_cases hseen : sku ∈ seen
      · rw [if_pos hseen]
        exact shopScan_inv mk getSku limit rest _ h
      · rw [if_neg hseen]
        have hinv2 := scanInv_append (mk p) h hseen (truthyStr_eq_some hs).2
        by_cases hlim : limit ≤ (results ++ [(sku, mk p)]).length
        · simpa only [if_pos hlim] using hinv2
        · simpa only [if_neg hlim] using shopScan_inv mk getSku limit rest _ hinv2

theorem scanInv_start {β : Type} : ScanInv (β := β) ([], []) := by
  refine ⟨List.nodup_nil, ?_, ?_⟩ <;> intro x hx <;> exact absurd hx (by simp)

theorem scanInv_take {β : Type} {st : List (String × β) × List String} (n : ℕ)
    (h : ScanInv st) :
    ((st.1.take n).map Prod.fst).Nodup ∧ ∀ x ∈ (st.1.take n).map Prod.fst, x ≠ "" := by
  obtain ⟨h1, _, h3⟩ := h
  constructor
  · rw [List.map_take]
    exact h1.sublist (List.take_sublist _ _)
  · intro x hx
    rw [List.map_take] at hx
    exact h3 _ (List.take_subset _ _ hx)

/- Concrete fixtures -/

/-- A shop offer with every field absent. -/
def emptyOffer : ShopOffer :=
  { price := none, old_price := none, available := false, url := none,
    images := [], brand := none, specifications := none }

/-- A raw merged document with every field absent. -/
def emptyRaw : RawProduct :=
  { _id := none, title := none, sku := none, subcategory := none,
    low_category := none, top_category := none, shops := [] }

/-- A single-shop document with every field absent. -/
def emptySingle : SingleDoc :=
  { _id := none, title := none, sku := none, brand := none, price := none,
    old_price := none, available := false, url := none, images := [],
    overview := none, description := none, subcategory := none,
    low_category := none, top_category := none, specifications := none }

/- Claim theorems -/

/-- C1: for every raw product record, both normalizers return a shopPrices
list sorted ascending (non-decreasing) by price, ties kept in the original
collection order (the price list filtered to any single price value is
unchanged by the sort), and bestPrice equals shopPrices[0].price when the
list is non-empty, else 0. -/
theorem c1_shopPrices_sorted_best (p : RawProduct) (d : String) (i : Bool) :
    ((parse_product p d i).shopPrices.Pairwise priceLE
      ∧ (∀ v : ℚ, (parse_product p d i).shopPrices.filter (fun e => decide (e.price = v)) =
          (retailShopPrices p.shops).filter (fun e => decide (e.price = v)))
      ∧ (parse_product p d i).bestPrice =
          (match (parse_product p d i).shopPrices with | [] => (0 : ℚ) | e :: _ => e.price))
    ∧ ((parse_para_product p d i).shopPrices.Pairwise priceLE
      ∧ (∀ v : ℚ, (parse_para_product p d i).shopPrices.filter (fun e => decide (e.price = v)) =
          (paraShopPrices p.shops).filter (fun e => decide (e.price = v)))
      ∧ (parse_para_product p d i).bestPrice =
          (match (parse_para_product p d i).shopPrices with | [] => (0 : ℚ) | e :: _ => e.price)) := by
  refine ⟨⟨?_, ?_, ?_⟩, ⟨?_, ?_, ?_⟩⟩
  · exact List.sorted_insertionSort priceLE (retailShopPrices p.shops)
  · intro v; exact filter_insertionSort_price v (retailShopPrices p.shops)
  · rfl
  · exact List.sorted_insertionSort priceLE (paraShopPrices p.shops)
  · intro v; exact filter_insertionSort_price v (paraShopPrices p.shops)
  · show pyRound3 (match List.insertionSort priceLE (paraShopPrices p.shops) with
        | [] => (0 : ℚ) | sp :: _ => sp.price) =
      (match List.insertionSort priceLE (paraShopPrices p.shops) with
        | [] => (0 : ℚ) | e :: _ => e.price)
    cases hs : List.insertionSort priceLE (paraShopPrices p.shops) with
    | nil => exact pyRound3_zero
    | cons e rest =>
      have he : e ∈ paraShopPrices p.shops := by
        have h1 : e ∈ List.insertionSort priceLE (paraShopPrices p.shops) := by
          rw [hs]; exact List.mem_cons_self _ _
        exact (List.mem_insertionSort priceLE).mp h1
      obtain ⟨q, hq⟩ := paraShopPrices_price_round he
      dsimp only
      rw [hq]
      exact pyRound3_idem q

/-- C7: when the aggregation execution fails, both listing accessors swallow
the error and return a well-formed empty page: no products, total 0,
totalPages 0, echoing the requested page and limit. -/
theorem c7_listing_error_empty_page (e : String) (page limit : ℕ) :
    get_products_listing (Except.error e) page limit =
      { products := [], total := 0, page := page, limit := limit, totalPages := 0 }
    ∧ get_para_products_listing (Except.error e) page limit =
      { products := [], total := 0, page := page, limit := limit, totalPages := 0 } :=
  ⟨rfl, rfl⟩

/-- C10: both single-shop normalizers always return exactly one shopPrices
entry whose price equals bestPrice (the price list is never empty), and a
record with an absent price field yields bestPrice 0. -/
theorem c10_single_shop_one_entry (p : SingleDoc) (s : String) :
    (parse_single_shop_product p s).shopPrices.map ShopPrice.price =
        [(parse_single_shop_product p s).bestPrice]
    ∧ (p.price = none → (parse_single_shop_product p s).bestPrice = 0)
    ∧ (parse_single_para_shop_product p s).shopPrices.map ShopPrice.price =
        [(parse_single_para_shop_product p s).bestPrice]
    ∧ (p.price = none → (parse_single_para_shop_product p s).bestPrice = 0) := by
  refine ⟨rfl, fun h => ?_, rfl, fun h => ?_⟩
  · show p.price.getD 0 = 0
    rw [h]
    rfl
  · show pyRound3 (p.price.getD 0) = 0
    rw [h]
    exact pyRound3_zero

/-- C10 witness: a fully absent single-shop record has bestPrice 0 and a
one-entry price list in both domains. -/
theorem c10_single_shop_one_entry_witness :
    emptySingle.price = none
    ∧ (parse_single_shop_product emptySingle "mytek").bestPrice = 0
    ∧ (parse_single_para_shop_product emptySingle "parashop").bestPrice = 0 :=
  ⟨rfl, (c10_single_shop_one_entry emptySingle "mytek").2.1 rfl,
    (c10_single_shop_one_entry emptySingle "parashop").2.2.2 rfl⟩

/-- C9 counterexample: a single-shop record without a brand key resolves to
"GENERIC" (the default "Generic" is itself uppercased on this path), not to
the exact string "Generic" the claim requires. -/
theorem c9_counterexample :
    emptySingle.brand = none
    ∧ (parse_single_shop_product emptySingle "mytek").brand = "GENERIC"
    ∧ "GENERIC" ≠ "Generic" := by
  refine ⟨rfl, by decide, by decide⟩

/-- C9 amended: the merged normalizers resolve the brand as the first truthy
shop brand in priority order, uppercased, with untouched default "Generic";
the single-shop fallbacks uppercase whatever `p.get("brand", "Generic")`
yields when it is non-empty — so an absent brand becomes "GENERIC" and a
present-but-empty brand stays "". -/
theorem c9_brand_resolution (p : RawProduct) (d : String) (i : Bool)
    (doc : SingleDoc) (s : String) :
    (parse_product p d i).brand = specFirstBrand p.shops retailShops
    ∧ (parse_para_product p d i).brand = specFirstBrand p.shops PARA_SHOPS
    ∧ (parse_single_shop_product doc s).brand =
        (match doc.brand with
         | none => "GENERIC"
         | some b => if b = "" then "" else pyUpper b)
    ∧ (parse_single_para_shop_product doc s).brand =
        (match doc.brand with
         | none => "GENERIC"
         | some b => if b = "" then "" else pyUpper b) := by
  refine ⟨firstBrand_eq_spec _ _, firstBrand_eq_spec _ _, ?_, ?_⟩
  · have hdef : (parse_single_shop_product doc s).brand =
        (if doc.brand.getD "Generic" = "" then doc.brand.getD "Generic"
         else pyUpper (doc.brand.getD "Generic")) := rfl
    rw [hdef]
    cases doc.brand with
    | none => decide
    | some b =>
      by_cases h : b = "" <;> simp [h]
  · have hdef : (parse_single_para_shop_product doc s).brand =
        (if doc.brand.getD "Generic" = "" then doc.brand.getD "Generic"
         else pyUpper (doc.brand.getD "Generic")) := rfl
    rw [hdef]
    cases doc.brand with
    | none => decide
    | some b =>
      by_cases h : b = "" <;> simp [h]

/-- C3 counterexample: an offer whose price is present and equal to 0 is
excluded from the normalized price list (Python truthiness of `0`), while
the claim requires it to be included. -/
theorem c3_counterexample :
    (((emptyRaw.shops ++ [("mytek", { emptyOffer with price := some 0, available := true })]).lookup "mytek").map
        ShopOffer.price = some (some 0))
    ∧ (parse_product
        { emptyRaw with shops := [("mytek", { emptyOffer with price := some 0, available := true })] }
        "" false).shopPrices = [] := by
  exact ⟨by decide, by decide⟩

/-- C3 amended: a shop's offer contributes an entry to the normalized price
list if and only if the offer exists under that shop key and its price is
present and non-zero (Python truthiness), in both domains. -/
theorem c3_offer_inclusion (p : RawProduct) (d : String) (i : Bool) (s : String) :
    (s ∈ retailShops →
      ((∃ e ∈ (parse_product p d i).shopPrices, e.shop = pyCapitalize s) ↔
        ∃ shop, p.shops.lookup s = some shop ∧ ∃ q, shop.price = some q ∧ q ≠ 0))
    ∧ (s ∈ PARA_SHOPS →
      ((∃ e ∈ (parse_para_product p d i).shopPrices, e.shop = paraShopDisplay s) ↔
        ∃ shop, p.shops.lookup s = some shop ∧ ∃ q, shop.price = some q ∧ q ≠ 0)) := by
  constructor
  · intro hs
    constructor
    · rintro ⟨e, he, hshop⟩
      have he1 : e ∈ List.insertionSort priceLE (retailShopPrices p.shops) := he
      obtain ⟨t, ht, shop, h1, q, h2, rfl⟩ :=
        mem_retailShopPrices.mp ((List.mem_insertionSort priceLE).mp he1)
      have hshop2 : pyCapitalize t = pyCapitalize s := hshop
      have hts : t = s := by
        simp only [retailShops, List.mem_cons, List.not_mem_nil, or_false] at hs ht
        rcases hs with rfl | rfl | rfl <;> rcases ht with rfl | rfl | rfl <;>
          first
            | rfl
            | exact absurd hshop2 (by decide)
      subst hts
      obtain ⟨hp, hq0⟩ := truthyQ_eq_some.mp h2
      exact ⟨shop, h1, q, hp, hq0⟩
    · rintro ⟨shop, h1, q, hp, hq0⟩
      have h2 : truthyQ shop.price = some q := truthyQ_eq_some.mpr ⟨hp, hq0⟩
      refine ⟨{ shop := pyCapitalize s, price := q, oldPrice := truthyQ shop.old_price,
                available := shop.available, url := shop.url }, ?_, rfl⟩
      exact (List.mem_insertionSort priceLE).mpr
        (mem_retailShopPrices.mpr ⟨s, hs, shop, h1, q, h2, rfl⟩)
  · intro hs
    constructor
    · rintro ⟨e, he, hshop⟩
      have he1 : e ∈ List.insertionSort priceLE (paraShopPrices p.shops) := he
      obtain ⟨t, ht, shop, h1, q, h2, rfl⟩ :=
        mem_paraShopPrices.mp ((List.mem_insertionSort priceLE).mp he1)
      have hshop2 : paraShopDisplay t = paraShopDisplay s := hshop
      have hts : t = s := by
        simp only [PARA_SHOPS, List.mem_cons, List.not_mem_nil, or_false] at hs ht
        rcases hs with rfl | rfl | rfl <;> rcases ht with rfl | rfl | rfl <;>
          first
            | rfl
            | exact absurd hshop2 (by decide)
      subst hts
      obtain ⟨hp, hq0⟩ := truthyQ_eq_some.mp h2
      exact ⟨shop, h1, q, hp, hq0⟩
    · rintro ⟨shop, h1, q, hp, hq0⟩
      have h2 : truthyQ shop.price = some q := truthyQ_eq_some.mpr ⟨hp, hq0⟩
      refine ⟨{ shop := paraShopDisplay s, price := pyRound3 q,
                oldPrice := truthyQ shop.old_price,
                available := shop.available, url := shop.url }, ?_, rfl⟩
      exact (List.mem_insertionSort priceLE).mpr
        (mem_paraShopPrices.mpr ⟨s, hs, shop, h1, q, h2, rfl⟩)

/-- Fixture for the C3 witness: one truthy-priced mytek offer. -/
def exC3w : RawProduct :=
  { emptyRaw with shops := [("mytek", { emptyOffer with price := some 5 })] }

/-- C3 witness: a shop with a present non-zero price does appear in the
price list, via the amended equivalence at a concrete record. -/
theorem c3_offer_inclusion_witness :
    "mytek" ∈ retailShops
    ∧ ∃ e ∈ (parse_product exC3w "" false).shopPrices, e.shop = pyCapitalize "mytek" :=
  ⟨by decide,
    ((c3_offer_inclusion exC3w "" false "mytek").1 (by decide)).mpr
      ⟨{ emptyOffer with price := some 5 }, by decide, 5, by decide, by decide⟩⟩

/-- C4 counterexample: an offer marked available with an absent price is
excluded from the price list, so the product is reported out-of-stock,
while the claim requires it to be in-stock. -/
theorem c4_counterexample :
    ((({ emptyRaw with
          shops := [("mytek", { emptyOffer with available := true })] } : RawProduct).shops.lookup
        "mytek").map ShopOffer.available = some true)
    ∧ ((({ emptyRaw with
          shops := [("mytek", { emptyOffer with available := true })] } : RawProduct).shops.lookup
        "mytek").map ShopOffer.price = some none)
    ∧ (parse_product
        { emptyRaw with shops := [("mytek", { emptyOffer with available := true })] }
        "" false).inStock = false := by
  exact ⟨by decide, by decide, by decide⟩

/-- C4 amended: a normalized product is in-stock if and only if some shop
offer with a truthy (present, non-zero) price is marked available; offers
without a usable price never contribute to the stock flag. -/
theorem c4_in_stock_iff (p : RawProduct) (d : String) (i : Bool) :
    ((parse_product p d i).inStock = true ↔
      ∃ s ∈ retailShops, ∃ shop, p.shops.lookup s = some shop ∧
        (∃ q, shop.price = some q ∧ q ≠ 0) ∧ shop.available = true)
    ∧ ((parse_para_product p d i).inStock = true ↔
      ∃ s ∈ PARA_SHOPS, ∃ shop, p.shops.lookup s = some shop ∧
        (∃ q, shop.price = some q ∧ q ≠ 0) ∧ shop.available = true) := by
  constructor
  · have hdef : (parse_product p d i).inStock =
        (List.insertionSort priceLE (retailShopPrices p.shops)).any (fun sp => sp.available) := rfl
    rw [hdef, List.any_eq_true]
    constructor
    · rintro ⟨e, he, hav⟩
      obtain ⟨s, hs, shop, h1, q, h2, rfl⟩ :=
        mem_retailShopPrices.mp ((List.mem_insertionSort priceLE).mp he)
      obtain ⟨hp, hq0⟩ := truthyQ_eq_some.mp h2
      exact ⟨s, hs, shop, h1, ⟨q, hp, hq0⟩, hav⟩
    · rintro ⟨s, hs, shop, h1, ⟨q, hp, hq0⟩, hav⟩
      exact ⟨_, (List.mem_insertionSort priceLE).mpr
        (mem_retailShopPrices.mpr ⟨s, hs, shop, h1, q, truthyQ_eq_some.mpr ⟨hp, hq0⟩, rfl⟩), hav⟩
  · have hdef : (parse_para_product p d i).inStock =
        (List.insertionSort priceLE (paraShopPrices p.shops)).any (fun sp => sp.available) := rfl
    rw [hdef, List.any_eq_true]
    constructor
    · rintro ⟨e, he, hav⟩
      obtain ⟨s, hs, shop, h1, q, h2, rfl⟩ :=
        mem_paraShopPrices.mp ((List.mem_insertionSort priceLE).mp he)
      obtain ⟨hp, hq0⟩ := truthyQ_eq_some.mp h2
      exact ⟨s, hs, shop, h1, ⟨q, hp, hq0⟩, hav⟩
    · rintro ⟨s, hs, shop, h1, ⟨q, hp, hq0⟩, hav⟩
      exact ⟨_, (List.mem_insertionSort priceLE).mpr
        (mem_paraShopPrices.mpr ⟨s, hs, shop, h1, q, truthyQ_eq_some.mpr ⟨hp, hq0⟩, rfl⟩), hav⟩

/-- C5 counterexample: a record whose only shop has old price equal to the
current price still gets an originalPrice, while the claim allows emission
only when some old price differs from the current price. -/
theorem c5_counterexample :
    (parse_product
        { emptyRaw with
          shops := [("mytek", { emptyOffer with price := some 100, old_price := some 100 })] }
        "" false).originalPrice = some 100
    ∧ (parse_product
        { emptyRaw with
          shops := [("mytek", { emptyOffer with price := some 100, old_price := some 100 })] }
        "" false).shopPrices.all (fun e => decide (e.oldPrice = some e.price)) = true := by
  exact ⟨by decide, by decide⟩

/-- C5 amended: originalPrice is present iff some included offer carries a
truthy old price, in which case it is the minimum of those entries' old
prices (regardless of whether any differs from the current price; the
parapharmacy domain additionally rounds it to 3 decimal places); it is
never derived from bestPrice, and shops excluded from the price list
contribute nothing. -/
theorem c5_original_price_min (p : RawProduct) (d : String) (i : Bool) :
    (((parse_product p d i).originalPrice = none ↔
        oldCandidates (parse_product p d i).shopPrices = [])
      ∧ ∀ q, (parse_product p d i).originalPrice = some q →
          q ∈ oldCandidates (parse_product p d i).shopPrices
          ∧ ∀ r ∈ oldCandidates (parse_product p d i).shopPrices, q ≤ r)
    ∧ (((parse_para_product p d i).originalPrice = none ↔
        oldCandidates (parse_para_product p d i).shopPrices = [])
      ∧ ∀ q, (parse_para_product p d i).originalPrice = some q →
          ∃ m, m ∈ oldCandidates (parse_para_product p d i).shopPrices
            ∧ (∀ r ∈ oldCandidates (parse_para_product p d i).shopPrices, m ≤ r)
            ∧ q = pyRound3 m) := by
  have hdefr : (parse_product p d i).originalPrice =
      truthyQ ((oldCandidates (parse_product p d i).shopPrices).min?) := rfl
  have hdefp : (parse_para_product p d i).originalPrice =
      (truthyQ ((oldCandidates (parse_para_product p d i).shopPrices).min?)).map pyRound3 := rfl
  refine ⟨⟨?_, ?_⟩, ?_, ?_⟩
  · rw [hdefr]
    constructor
    · intro h
      cases hmin : (oldCandidates (parse_product p d i).shopPrices).min? with
      | none => exact List.min?_eq_none_iff.mp hmin
      | some m =>
        rw [hmin] at h
        have hne := mem_oldCandidates_ne_zero (min?_mem_rat hmin)
        simp only [truthyQ] at h
        rw [if_neg hne] at h
        exact absurd h (by simp)
    · intro h
      rw [h]
      rfl
  · intro q hq
    rw [hdefr] at hq
    cases hmin : (oldCandidates (parse_product p d i).shopPrices).min? with
    | none => rw [hmin] at hq; exact absurd hq (by simp [truthyQ])
    | some m =>
      rw [hmin] at hq
      obtain ⟨hm, _⟩ := truthyQ_eq_some.mp hq
      have hmq : m = q := Option.some_inj.mp hm
      subst hmq
      exact ⟨min?_mem_rat hmin, min?_le_rat hmin⟩
  · rw [hdefp]
    rw [Option.map_eq_none']
    constructor
    · intro h
      cases hmin : (oldCandidates (parse_para_product p d i).shopPrices).min? with
      | none => exact List.min?_eq_none_iff.mp hmin
      | some m =>
        rw [hmin] at h
        have hne := mem_oldCandidates_ne_zero (min?_mem_rat hmin)
        simp only [truthyQ] at h
        rw [if_neg hne] at h
        exact absurd h (by simp)
    · intro h
      rw [h]
      rfl
  · intro q hq
    rw [hdefp] at hq
    rw [Option.map_eq_some'] at hq
    obtain ⟨m0, hm0, hround⟩ := hq
    cases hmin : (oldCandidates (parse_para_product p d i).shopPrices).min? with
    | none => rw [hmin] at hm0; exact absurd hm0 (by simp [truthyQ])
    | some m =>
      rw [hmin] at hm0
      obtain ⟨hm, _⟩ := truthyQ_eq_some.mp hm0
      have hmq : m = m0 := Option.some_inj.mp hm
      subst hmq
      exact ⟨m, min?_mem_rat hmin, min?_le_rat hmin, hround.symm⟩

/-- Fixture for the C5 witness: one mytek offer with price 5, old price 10. -/
def exC5w : RawProduct :=
  { emptyRaw with
    shops := [("mytek", { emptyOffer with price := some 5, old_price := some 10 })] }

/-- C5 witness: at a concrete record with one discounted offer,
originalPrice is 10 and 10 is among the old-price candidates, via the
amended minimum characterization. -/
theorem c5_original_price_min_witness :
    (parse_product exC5w "" false).originalPrice = some 10
    ∧ (10 : ℚ) ∈ oldCandidates (parse_product exC5w "" false).shopPrices :=
  ⟨by decide, ((c5_original_price_min exC5w "" false).1.2 10 (by decide)).1⟩

/-- Fixture for the C2 counterexample, retail side: a price with 3 decimal
places. -/
def exC2r : RawProduct :=
  { emptyRaw with shops := [("mytek", { emptyOffer with price := some (mkRat 1239 1000) })] }

/-- Fixture for the C2 counterexample, para side: an old price with 4
decimal places. -/
def exC2p : RawProduct :=
  { emptyRaw with
    shops := [("parashop", { emptyOffer with price := some 1, old_price := some (mkRat 12345 10000) })] }

/-- C2 counterexample: the retail normalizer emits the raw price unrounded
(1.239 is not a 2-decimal value), and the para merged normalizer emits the
raw old price unrounded (1.2345 is not a 3-decimal value). -/
theorem c2_counterexample :
    ((parse_product exC2r "" false).shopPrices.map ShopPrice.price = [mkRat 1239 1000]
      ∧ ¬ hasDp 2 (mkRat 1239 1000))
    ∧ ((parse_para_product exC2p "" false).shopPrices.map ShopPrice.oldPrice =
        [some (mkRat 12345 10000)]
      ∧ ¬ hasDp 3 (mkRat 12345 10000)) := by
  refine ⟨⟨by decide, ?_⟩, by decide, ?_⟩ <;> (unfold hasDp; decide)

/-- C2 amended: the retail normalizer applies no rounding at all (each
entry's price and old price equal the raw shop values); the para merged
normalizer rounds each entry's price to 3 decimal places (banker's
rounding) but passes the old price through unrounded. -/
theorem c2_rounding (p : RawProduct) (d : String) (i : Bool) :
    (∀ e ∈ (parse_product p d i).shopPrices,
      ∃ s ∈ retailShops, ∃ shop, p.shops.lookup s = some shop ∧
        shop.price = some e.price ∧ e.oldPrice = truthyQ shop.old_price)
    ∧ (∀ e ∈ (parse_para_product p d i).shopPrices,
      hasDp 3 e.price ∧
      ∃ s ∈ PARA_SHOPS, ∃ shop, p.shops.lookup s = some shop ∧
        (∃ q, shop.price = some q ∧ e.price = pyRound3 q) ∧
        e.oldPrice = truthyQ shop.old_price) := by
  constructor
  · intro e he
    have he1 : e ∈ List.insertionSort priceLE (retailShopPrices p.shops) := he
    obtain ⟨s, hs, shop, h1, q, h2, rfl⟩ :=
      mem_retailShopPrices.mp ((List.mem_insertionSort priceLE).mp he1)
    obtain ⟨hp, _⟩ := truthyQ_eq_some.mp h2
    exact ⟨s, hs, shop, h1, hp, rfl⟩
  · intro e he
    have he1 : e ∈ List.insertionSort priceLE (paraShopPrices p.shops) := he
    obtain ⟨s, hs, shop, h1, q, h2, rfl⟩ :=
      mem_paraShopPrices.mp ((List.mem_insertionSort priceLE).mp he1)
    obtain ⟨hp, _⟩ := truthyQ_eq_some.mp h2
    exact ⟨pyRound3_hasDp q, s, hs, shop, h1, ⟨q, hp, rfl⟩, rfl⟩

/-- Fixture for the C2 witness. -/
def exC2w : RawProduct :=
  { emptyRaw with shops := [("mytek", { emptyOffer with price := some 7 })] }

/-- The single entry produced for `exC2w`. -/
def exC2wEntry : ShopPrice :=
  { shop := "Mytek", price := 7, oldPrice := none, available := false, url := none }

/-- C2 witness: the provenance statement instantiated at a concrete record
and its concrete price entry. -/
theorem c2_rounding_witness :
    exC2wEntry ∈ (parse_product exC2w "" false).shopPrices
    ∧ ∃ s ∈ retailShops, ∃ shop, exC2w.shops.lookup s = some shop ∧
        shop.price = some exC2wEntry.price ∧ exC2wEntry.oldPrice = truthyQ shop.old_price :=
  ⟨by decide, (c2_rounding exC2w "" false).1 exC2wEntry (by decide)⟩

/-- C6: on the success path of both listing accessors, with limit at least
1, totalPages equals the ceiling of total divided by limit when total is
positive, and equals 1 when total is 0. -/
theorem c6_total_pages (metadata : List ℕ) (prods : List RawProduct) (page limit : ℕ)
    (h : 1 ≤ limit) :
    (0 < (get_products_listing (Except.ok (metadata, prods)) page limit).total →
      (get_products_listing (Except.ok (metadata, prods)) page limit).totalPages =
        ⌈((get_products_listing (Except.ok (metadata, prods)) page limit).total : ℚ) /
          (limit : ℚ)⌉₊)
    ∧ ((get_products_listing (Except.ok (metadata, prods)) page limit).total = 0 →
      (get_products_listing (Except.ok (metadata, prods)) page limit).totalPages = 1)
    ∧ (0 < (get_para_products_listing (Except.ok (metadata, prods)) page limit).total →
      (get_para_products_listing (Except.ok (metadata, prods)) page limit).totalPages =
        ⌈((get_para_products_listing (Except.ok (metadata, prods)) page limit).total : ℚ) /
          (limit : ℚ)⌉₊)
    ∧ ((get_para_products_listing (Except.ok (metadata, prods)) page limit).total = 0 →
      (get_para_products_listing (Except.ok (metadata, prods)) page limit).totalPages = 1) := by
  have htot : (get_products_listing (Except.ok (metadata, prods)) page limit).total =
      metadata.head?.getD 0 := rfl
  have hpg : (get_products_listing (Except.ok (metadata, prods)) page limit).totalPages =
      (if 0 < metadata.head?.getD 0 then (metadata.head?.getD 0 + limit - 1) / limit else 1) := rfl
  have htot2 : (get_para_products_listing (Except.ok (metadata, prods)) page limit).total =
      metadata.head?.getD 0 := rfl
  have hpg2 : (get_para_products_listing (Except.ok (metadata, prods)) page limit).totalPages =
      (if 0 < metadata.head?.getD 0 then (metadata.head?.getD 0 + limit - 1) / limit else 1) := rfl
  refine ⟨?_, ?_, ?_, ?_⟩
  · intro hpos
    rw [htot] at hpos
    rw [hpg, htot, if_pos hpos]
    exact add_pred_div_eq_ceil _ _ h hpos
  · intro h0
    rw [htot] at h0
    rw [hpg, h0]
    simp
  · intro hpos
    rw [htot2] at hpos
    rw [hpg2, htot2, if_pos hpos]
    exact add_pred_div_eq_ceil _ _ h hpos
  · intro h0
    rw [htot2] at h0
    rw [hpg2, h0]
    simp

/-- C6 witness: the pagination formula instantiated at 5 matching records
with page size 2. -/
theorem c6_total_pages_witness :
    1 ≤ 2
    ∧ (0 < (get_products_listing (Except.ok ([5], [])) 1 2).total →
      (get_products_listing (Except.ok ([5], [])) 1 2).totalPages =
        ⌈((get_products_listing (Except.ok ([5], [])) 1 2).total : ℚ) / ((2 : ℕ) : ℚ)⌉₊) :=
  ⟨by norm_num, (c6_total_pages [5] [] 1 2 (by norm_num)).1⟩

/-- Fixtures for the C8 counterexample: two SKU-less documents whose titles
match a query. -/
def exC8a : RawProduct := { emptyRaw with title := some "usb cable" }

/-- Second SKU-less matching document. -/
def exC8b : RawProduct := { emptyRaw with title := some "usb hub" }

/-- C8 counterexample: two SKU-less matches produce no search results at
all — a match without a SKU is skipped entirely, it can never "appear in
the results alongside other SKU-less matches". -/
theorem c8_counterexample :
    exC8a.sku = none ∧ exC8b.sku = none
    ∧ search_products [exC8a, exC8b] [] [] [] 10 = [] := by
  exact ⟨rfl, rfl, by decide⟩

/-- C8 amended: search deduplicates by SKU — the SKUs under which the
returned results were collected are pairwise distinct and non-empty; a
document whose SKU is absent or empty is never collected. -/
theorem c8_search_dedup (merged : List RawProduct) (d1 d2 d3 : List SingleDoc) (limit : ℕ) :
    (((search_products_keyed merged d1 d2 d3 limit).map Prod.fst).Nodup
      ∧ ∀ s ∈ (search_products_keyed merged d1 d2 d3 limit).map Prod.fst, s ≠ "")
    ∧ (((search_para_products_keyed merged d1 d2 d3 limit).map Prod.fst).Nodup
      ∧ ∀ s ∈ (search_para_products_keyed merged d1 d2 d3 limit).map Prod.fst, s ≠ "") := by
  constructor
  · unfold search_products_keyed
    dsimp only
    repeat' split
    all_goals
      refine scanInv_take _ ?_
      repeat
        first
          | exact scanInv_start
          | apply mergedScan_inv
          | apply shopScan_inv
  · unfold search_para_products_keyed
    dsimp only
    repeat' split
    all_goals
      refine scanInv_take _ ?_
      repeat
        first
          | exact scanInv_start
          | apply mergedScan_inv
          | apply shopScan_inv

/-- Fixture for the C8 witness: one merged document with SKU "A". -/
def exC8w : RawProduct := { emptyRaw with sku := some "A", title := some "adapter" }

/-- C8 witness: the dedup statement instantiated at a concrete search whose
single collected result is keyed by SKU "A". -/
theorem c8_search_dedup_witness :
    "A" ∈ (search_products_keyed [exC8w] [] [] [] 10).map Prod.fst
    ∧ "A" ≠ "" :=
  ⟨by decide, (c8_search_dedup [exC8w] [] [] [] 10).1.2 "A" (by decide)⟩
